import Mathlib

/-!
# Verification of `container_agent/run_containers.py`

A shallow embedding of the manifest validation and derivation pipeline of
the container agent, together with proofs about its behaviour.

Modelling conventions:
* Python dictionaries coming from the YAML manifest are embedded as
  structures with `Option` fields (`none` = key absent).
* `Fatal(...)` (which logs and exits the process) is embedded as
  `Except.error` with a structured error value carrying the same
  distinguishing data as the formatted message.
* The Python `IndexError` that `IsValidPath` raises on the empty string is
  embedded as the dedicated error `Err.pyIndexError`; `IsValidPath` itself
  returns `Option Bool` (`none` = the exception).
* Python `re.match` with a `$` anchor also matches just before a single
  newline at the very end of the string; the embeddings of the two regex
  validators reproduce that.
-/

deriving instance DecidableEq for Except

namespace RunContainers

/-- `PROTOCOL_TCP` from the source. -/
def PROTOCOL_TCP : String := "TCP"

/-- `PROTOCOL_UDP` from the source. -/
def PROTOCOL_UDP : String := "UDP"

/-- `VALID_PROTOCOLS = [PROTOCOL_TCP, PROTOCOL_UDP]`. -/
def VALID_PROTOCOLS : List String := [PROTOCOL_TCP, PROTOCOL_UDP]

/-- `MAX_PATH_LEN = 512`. -/
def MAX_PATH_LEN : Nat := 512

/-- `VOLUMES_ROOT_DIR = '/export'`. -/
def VOLUMES_ROOT_DIR : String := "/export"

/-- Lowercase ASCII letter, the class `[a-z]`. -/
def isLowerAZ (c : Char) : Bool := 'a' ≤ c && c ≤ 'z'

/-- ASCII digit, the class `[0-9]`. -/
def isDigit09 (c : Char) : Bool := '0' ≤ c && c ≤ '9'

/-- The character class `[-a-z0-9]` of `RE_RFC1035_NAME`. -/
def rfc1035Body (c : Char) : Bool := c = '-' || isLowerAZ c || isDigit09 c

/-- The language of `([-a-z0-9]*[a-z0-9])*`: a possibly empty word over
`[-a-z0-9]` whose last character, when the word is non-empty, lies in
`[a-z0-9]` (every group of the iteration ends in `[a-z0-9]`, and
conversely such a word is a single group). -/
def rfc1035Tail : List Char → Bool
  | [] => true
  | [c] => isLowerAZ c || isDigit09 c
  | c :: rest => rfc1035Body c && rfc1035Tail rest

/-- The language of the full regex `^[a-z]([-a-z0-9]*[a-z0-9])*$` anchored
at both ends of the character list. -/
def rfc1035Exact : List Char → Bool
  | [] => false
  | c :: rest => isLowerAZ c && rfc1035Tail rest

/-- `IsRfc1035Name`: `RE_RFC1035_NAME.match(name)`, truthiness of the
match object.  Python's `$` matches at the end of the string or just
before one final newline, so a string consisting of a matching core plus
one trailing `'\n'` is also accepted. -/
def IsRfc1035Name (s : String) : Bool :=
  rfc1035Exact s.toList ||
    (s.toList.getLast? == some '\n' && rfc1035Exact s.toList.dropLast)

/-- The character class `[A-Za-z_]` of `RE_C_TOKEN`. -/
def cTokenStart (c : Char) : Bool :=
  isLowerAZ c || ('A' ≤ c && c ≤ 'Z') || c = '_'

/-- Python 2 `\w` without `re.UNICODE`: `[A-Za-z0-9_]`. -/
def cTokenBody (c : Char) : Bool := cTokenStart c || isDigit09 c

/-- The language of `[A-Za-z_]\w*` anchored at both ends. -/
def cTokenExact : List Char → Bool
  | [] => false
  | c :: rest => cTokenStart c && rest.all cTokenBody

/-- `IsCToken`: `RE_C_TOKEN.match(name)` (`re.match` anchors at the start;
the trailing `$` again also matches before one final newline). -/
def IsCToken (s : String) : Bool :=
  cTokenExact s.toList ||
    (s.toList.getLast? == some '\n' && cTokenExact s.toList.dropLast)

/-- `IsValidProtocol(proto): return proto in VALID_PROTOCOLS`. -/
def IsValidProtocol (proto : String) : Bool := VALID_PROTOCOLS.contains proto

/-- `ProtocolString(proto)`: `'/udp'` for UDP, `''` otherwise. -/
def ProtocolString (proto : String) : String :=
  if proto = PROTOCOL_UDP then "/udp" else ""

/-- `IsValidPort(port): return 0 < port <= 65535`.  Manifest numbers are
arbitrary integers, so the domain is `Int`. -/
def IsValidPort (port : Int) : Bool := 0 < port && port ≤ 65535

/-- `IsValidPath(path): return path[0] == '/' and len(path) <= MAX_PATH_LEN`.
On the empty string `path[0]` raises `IndexError`, embedded as `none`. -/
def IsValidPath (path : String) : Option Bool :=
  match path.toList with
  | [] => none
  | c :: _ => some (c = '/' && path.length ≤ MAX_PATH_LEN)

/-- Structured stand-in for the messages passed to `Fatal`, which
terminates the process; `pyIndexError` is the uncaught Python `IndexError`
out of `IsValidPath` on an empty path. -/
inductive Err where
  | ctrNoName (idx : Nat)
  | ctrBadName (idx : Nat) (name : String)
  | ctrDupName (idx : Nat) (name : String)
  | ctrNoImage (name : String)
  | badWorkingDir (ctr : String) (dir : String)
  | portBadName (ctr : String) (idx : Nat) (name : String)
  | portDupName (ctr : String) (idx : Nat) (name : String)
  | portNoContainerPort (ctr : String) (port : String)
  | portBadContainerPort (ctr : String) (port : String) (val : Int)
  | portBadHostPort (ctr : String) (port : String) (val : Int)
  | portDupHostPort (ctr : String) (port : String) (val : Int)
  | portBadProtocol (ctr : String) (port : String) (proto : String)
  | mountNoName (ctr : String) (idx : Nat)
  | mountBadName (ctr : String) (idx : Nat) (name : String)
  | mountUnknownVolume (ctr : String) (idx : Nat) (name : String)
  | mountNoPath (ctr : String) (vol : String)
  | mountBadPath (ctr : String) (vol : String) (path : String)
  | envNoKey (ctr : String) (idx : Nat)
  | envBadKey (ctr : String) (idx : Nat) (key : String)
  | envNoValue (ctr : String) (key : String)
  | hostPortConflict (key : String)
  | ctrPortConflict (key : String)
  | pyIndexError
  deriving DecidableEq, Repr

/-- One entry of a `ports` block, fields optional as in the manifest. -/
structure PortSpec where
  name : Option String
  containerPort : Option Int
  hostPort : Option Int
  protocol : Option String
  deriving DecidableEq, Repr

/-- One entry of a `volumeMounts` block. -/
structure MountSpec where
  name : Option String
  path : Option String
  readOnly : Option Bool
  deriving DecidableEq, Repr

/-- One entry of an `env` block. -/
structure EnvSpec where
  key : Option String
  value : Option String
  deriving DecidableEq, Repr

/-- One entry of the `containers` block. -/
structure CtrSpec where
  name : Option String
  image : Option String
  command : List String
  workingDir : Option String
  ports : List PortSpec
  volumeMounts : List MountSpec
  env : List EnvSpec
  deriving DecidableEq, Repr

/-- The `Container` class: the accumulated parameters to start a Docker
container.  A port is `(host_port, container_port, protocol_suffix)`. -/
structure Container where
  name : String
  image : String
  command : List String
  hostname : Option String
  working_dir : Option String
  ports : List (Int × Int × String)
  mounts : List String
  env_vars : List String
  network_from : Option String
  deriving DecidableEq, Repr

/-- The `name` handling at the top of the `LoadPorts` loop body (lines
251-261): resolves the effective port name (`str(port_index)` when the
field is absent) and the updated `all_port_names` list. -/
def LoadPortsCheckName (ctrName : String) (idx : Nat) (names : List String) :
    Option String → Except Err (String × List String)
  | some pn =>
    if IsRfc1035Name pn then
      if pn ∈ names then .error (.portDupName ctrName idx pn)
      else .ok (pn, pn :: names)
    else .error (.portBadName ctrName idx pn)
  | none => .ok (toString idx, names)

/-- The rest of the `LoadPorts` loop body (lines 263-285): `containerPort`
required and valid, `hostPort` defaulted / validated / unique among
`all_host_port_nums`, protocol defaulted and validated, producing the
entry's `(host_port, ctr_port, ProtocolString(proto))` tuple. -/
def LoadPortEntry (ctrName pn : String) (hostNums : List Int)
    (ps : PortSpec) : Except Err (Int × Int × String) :=
  match ps.containerPort with
  | none => .error (.portNoContainerPort ctrName pn)
  | some cp =>
    if IsValidPort cp then
      let hp := ps.hostPort.getD cp
      if IsValidPort hp then
        if hp ∈ hostNums then .error (.portDupHostPort ctrName pn hp)
        else
          let proto := ps.protocol.getD PROTOCOL_TCP
          if IsValidProtocol proto then .ok (hp, cp, ProtocolString proto)
          else .error (.portBadProtocol ctrName pn proto)
      else .error (.portBadHostPort ctrName pn hp)
    else .error (.portBadContainerPort ctrName pn cp)

/-- Loop of `LoadPorts`, with the loop state (`port_index`,
`all_port_names`, `all_host_port_nums`) passed explicitly; the returned
list is the tail of `all_ports` contributed by the remaining entries. -/
def LoadPortsGo (ctrName : String) :
    List PortSpec → Nat → List String → List Int →
    Except Err (List (Int × Int × String))
  | [], _, _, _ => .ok []
  | ps :: rest, idx, names, hostNums =>
    match LoadPortsCheckName ctrName idx names ps.name with
    | .error e => .error e
    | .ok pr =>
      match LoadPortEntry ctrName pr.1 hostNums ps with
      | .error e => .error e
      | .ok t =>
        match LoadPortsGo ctrName rest (idx + 1) pr.2 (t.1 :: hostNums) with
        | .error e => .error e
        | .ok l => .ok (t :: l)

/-- `LoadPorts`: process a `ports` block and return the list of port
tuples. -/
def LoadPorts (portsSpec : List PortSpec) (ctrName : String) :
    Except Err (List (Int × Int × String)) :=
  LoadPortsGo ctrName portsSpec 0 [] []

/-- Loop body of `LoadVolumeMounts`. -/
def LoadVolumeMountsGo (allVolumes : List String) (ctrName : String) :
    List MountSpec → Nat → Except Err (List String)
  | [], _ => .ok []
  | ms :: rest, idx =>
    match ms.name with
    | none => .error (.mountNoName ctrName idx)
    | some mn =>
      if IsRfc1035Name mn then
        if mn ∈ allVolumes then
          match ms.path with
          | none => .error (.mountNoPath ctrName mn)
          | some p =>
            match IsValidPath p with
            | none => .error .pyIndexError
            | some false => .error (.mountBadPath ctrName mn p)
            | some true =>
              let mode := if ms.readOnly.getD false then "ro" else "rw"
              match LoadVolumeMountsGo allVolumes ctrName rest (idx + 1) with
              | .error e => .error e
              | .ok l =>
                .ok ((VOLUMES_ROOT_DIR ++ "/" ++ mn ++ ":" ++ p ++ ":" ++ mode) :: l)
        else .error (.mountUnknownVolume ctrName idx mn)
      else .error (.mountBadName ctrName idx mn)

/-- `LoadVolumeMounts`: process a `volumeMounts` block and return the list
of `-v` mount directive strings. -/
def LoadVolumeMounts (mountsSpec : List MountSpec) (allVolumes : List String)
    (ctrName : String) : Except Err (List String) :=
  LoadVolumeMountsGo allVolumes ctrName mountsSpec 0

/-- Loop body of `LoadEnvVars`. -/
def LoadEnvVarsGo (ctrName : String) :
    List EnvSpec → Nat → Except Err (List String)
  | [], _ => .ok []
  | es :: rest, idx =>
    match es.key with
    | none => .error (.envNoKey ctrName idx)
    | some k =>
      if IsCToken k then
        match es.value with
        | none => .error (.envNoValue ctrName k)
        | some v =>
          match LoadEnvVarsGo ctrName rest (idx + 1) with
          | .error e => .error e
          | .ok l => .ok ((k ++ "=" ++ v) :: l)
      else .error (.envBadKey ctrName idx k)

/-- `LoadEnvVars`: process an `env` block and return the list of
`KEY=VALUE` strings. -/
def LoadEnvVars (envSpec : List EnvSpec) (ctrName : String) :
    Except Err (List String) :=
  LoadEnvVarsGo ctrName envSpec 0

/-- `workingDir` handling of `LoadUserContainers` (lines 216-220):
accepted when absent or a valid path; `Fatal` when invalid; Python
`IndexError` when the empty string. -/
def CheckWorkingDir (ctrName : String) : Option String → Except Err Unit
  | none => .ok ()
  | some wd =>
    match IsValidPath wd with
    | none => .error .pyIndexError
    | some true => .ok ()
    | some false => .error (.badWorkingDir ctrName wd)

/-- Loop body of `LoadUserContainers`, with `ctr_index` and
`all_ctr_names` passed explicitly; returns the containers contributed by
the remaining entries. -/
def LoadUserContainersGo (allVolumes : List String) :
    List CtrSpec → Nat → List String → Except Err (List Container)
  | [], _, _ => .ok []
  | cs :: rest, idx, names =>
    match cs.name with
    | none => .error (.ctrNoName idx)
    | some nm =>
      if IsRfc1035Name nm then
        if nm ∈ names then .error (.ctrDupName idx nm)
        else
          match cs.image with
          | none => .error (.ctrNoImage nm)
          | some img =>
            match CheckWorkingDir nm cs.workingDir with
            | .error e => .error e
            | .ok _ =>
              match LoadPorts cs.ports nm with
              | .error e => .error e
              | .ok ports =>
                match LoadVolumeMounts cs.volumeMounts allVolumes nm with
                | .error e => .error e
                | .ok mounts =>
                  match LoadEnvVars cs.env nm with
                  | .error e => .error e
                  | .ok envVars =>
                    match LoadUserContainersGo allVolumes rest (idx + 1) (nm :: names) with
                    | .error e => .error e
                    | .ok tail =>
                      .ok ({ name := nm, image := img,
                             command := cs.command,
                             hostname := some nm,
                             working_dir := cs.workingDir,
                             ports := ports, mounts := mounts,
                             env_vars := envVars,
                             network_from := some "container:.net" } :: tail)
      else .error (.ctrBadName idx nm)

/-- `LoadUserContainers`: process a `containers` block and return the list
of user containers. -/
def LoadUserContainers (containers : List CtrSpec) (allVolumes : List String) :
    Except Err (List Container) :=
  LoadUserContainersGo allVolumes containers 0 []

/-- The synthesized `.net` network-namespace container, after the loop of
`LoadInfraContainers` has moved every user container's ports onto it. -/
def netContainer (userContainers : List Container) : Container :=
  { name := ".net", image := "busybox",
    command := ["sh", "-c", "rm -f nap && mkfifo nap && exec cat nap"],
    hostname := none, working_dir := none,
    ports := (userContainers.map Container.ports).flatten,
    mounts := [], env_vars := [], network_from := none }

/-- `LoadInfraContainers` mutates its argument (it empties each user
container's port list); the embedding returns the infra list together
with the updated user containers. -/
def LoadInfraContainers (userContainers : List Container) :
    List Container × List Container :=
  ([netContainer userContainers],
   userContainers.map fun c => { c with ports := [] })

/-- `infra_containers + user_containers` as handed to `RunContainers` in
`main` (the user containers having been mutated by
`LoadInfraContainers`). -/
def ResolveGroup (userContainers : List Container) : List Container :=
  (LoadInfraContainers userContainers).1 ++ (LoadInfraContainers userContainers).2

/-- Group-wide host-port key `'%s%s' % (port[0], port[2])`. -/
def hostKey (p : Int × Int × String) : String := toString p.1 ++ p.2.2

/-- Group-wide container-port key `'%s%s' % (port[1], port[2])`. -/
def ctrKey (p : Int × Int × String) : String := toString p.2.1 ++ p.2.2

/-- Loop body of `CheckGroupWideConflicts` over the flattened list of all
port bindings of the group, with the two accumulated key sets explicit. -/
def CheckGroupWideConflictsGo :
    List (Int × Int × String) → List String → List String → Except Err Unit
  | [], _, _ => .ok ()
  | p :: rest, hostPorts, ctrPorts =>
    let h := hostKey p
    if h ∈ hostPorts then .error (.hostPortConflict h)
    else
      let c := ctrKey p
      if c ∈ ctrPorts then .error (.ctrPortConflict c)
      else CheckGroupWideConflictsGo rest (h :: hostPorts) (c :: ctrPorts)

/-- All port bindings of a container list, in iteration order. -/
def allPorts (containers : List Container) : List (Int × Int × String) :=
  (containers.map Container.ports).flatten

/-- `CheckGroupWideConflicts`: no two containers may have conflicting host
or container ports. -/
def CheckGroupWideConflicts (containers : List Container) : Except Err Unit :=
  CheckGroupWideConflictsGo (allPorts containers) [] []

/-! ### Decimal representations

`hostKey` and `ctrKey` embed `'%s%s' % (port, suffix)`; deciding when two
such keys coincide requires knowing that the decimal rendering of a
number consists of digit characters only and is injective. -/

/-- Purely recursive form of `Nat.toDigitsCore` at base 10: the decimal
digit characters of `n`, most significant first. -/
def decRepr (n : Nat) : List Char :=
  if _h : n < 10 then [Nat.digitChar n]
  else decRepr (n / 10) ++ [Nat.digitChar (n % 10)]
termination_by n
decreasing_by exact Nat.div_lt_self (by omega) (by omega)

lemma digitChar_isDigit (n : Nat) (h : n < 10) :
    (Nat.digitChar n).isDigit = true := by
  interval_cases n <;> decide

lemma digitChar_toNat (n : Nat) (h : n < 10) :
    (Nat.digitChar n).toNat = n + 48 := by
  interval_cases n <;> decide

lemma toDigitsCore_eq_decRepr (f : Nat) :
    ∀ (n : Nat) (ds : List Char), n < f →
      Nat.toDigitsCore 10 f n ds = decRepr n ++ ds := by
  induction f with
  | zero => intro n ds h; omega
  | succ f ih =>
    intro n ds h
    simp only [Nat.toDigitsCore]
    by_cases h10 : n / 10 = 0
    · rw [if_pos h10, decRepr, dif_pos (by omega)]
      have hn : n % 10 = n := Nat.mod_eq_of_lt (by omega)
      rw [hn]; rfl
    · have hge : 10 ≤ n := by
        by_contra hc
        exact h10 (Nat.div_eq_of_lt (by omega))
      have hlt : n / 10 < n := Nat.div_lt_self (by omega) (by omega)
      rw [if_neg h10, ih (n / 10) _ (by omega)]
      conv_rhs => rw [decRepr]
      rw [dif_neg (by omega), List.append_assoc]
      rfl

/-- Numeric value of a list of decimal digit characters. -/
def decVal (l : List Char) : Nat :=
  l.foldl (fun acc c => acc * 10 + (c.toNat - 48)) 0

lemma decVal_append_digit (l : List Char) (c : Char) :
    decVal (l ++ [c]) = decVal l * 10 + (c.toNat - 48) := by
  simp [decVal, List.foldl_append]

lemma decVal_decRepr (n : Nat) : decVal (decRepr n) = n := by
  induction n using decRepr.induct with
  | case1 n h =>
    rw [decRepr, dif_pos h]
    simp [decVal, digitChar_toNat n h]
  | case2 n h ih =>
    rw [decRepr, dif_neg h, decVal_append_digit, ih,
      digitChar_toNat (n % 10) (by omega)]
    omega

lemma decRepr_isDigit (n : Nat) : ∀ c ∈ decRepr n, c.isDigit = true := by
  induction n using decRepr.induct with
  | case1 n h =>
    rw [decRepr, dif_pos h]
    intro c hc
    simp only [List.mem_singleton] at hc
    exact hc ▸ digitChar_isDigit n h
  | case2 n h ih =>
    rw [decRepr, dif_neg h]
    intro c hc
    rcases List.mem_append.mp hc with hc | hc
    · exact ih c hc
    · simp only [List.mem_singleton] at hc
      exact hc ▸ digitChar_isDigit (n % 10) (by omega)

lemma natRepr_eq_decRepr (n : Nat) : Nat.repr n = (decRepr n).asString := by
  rw [Nat.repr, Nat.toDigits, toDigitsCore_eq_decRepr (n + 1) n [] (by omega),
    List.append_nil]

lemma natRepr_data (n : Nat) : (Nat.repr n).data = decRepr n := by
  rw [natRepr_eq_decRepr]; rfl

lemma natRepr_isDigit (n : Nat) : ∀ c ∈ (Nat.repr n).data, c.isDigit = true := by
  rw [natRepr_data]; exact decRepr_isDigit n

lemma natRepr_inj {m n : Nat} (h : Nat.repr m = Nat.repr n) : m = n := by
  have hd : decRepr m = decRepr n := by
    have := congrArg String.data h
    rwa [natRepr_data, natRepr_data] at this
  have := congrArg decVal hd
  rwa [decVal_decRepr, decVal_decRepr] at this

lemma toString_int_nonneg (a : Int) (ha : 0 ≤ a) :
    toString a = Nat.repr a.toNat := by
  cases a with
  | ofNat m => rfl
  | negSucc m => exact absurd ha (by exact fun hc => absurd (Int.negSucc_lt_zero m) (by omega))

lemma toString_int_isDigit (a : Int) (ha : 0 ≤ a) :
    ∀ c ∈ (toString a).data, c.isDigit = true := by
  rw [toString_int_nonneg a ha]
  exact natRepr_isDigit a.toNat

lemma toString_int_inj {a b : Int} (ha : 0 ≤ a) (hb : 0 ≤ b)
    (h : toString a = toString b) : a = b := by
  rw [toString_int_nonneg a ha, toString_int_nonneg b hb] at h
  have := natRepr_inj h
  omega

/-- A group-conflict key determines the `(port, protocol_suffix)` pair, as
long as the port is non-negative and the suffix is one of the two real
protocol suffixes. -/
lemma key_inj {a b : Int} {s t : String} (ha : 0 ≤ a) (hb : 0 ≤ b)
    (hs : s = "" ∨ s = "/udp") (ht : t = "" ∨ t = "/udp") :
    toString a ++ s = toString b ++ t ↔ (a = b ∧ s = t) := by
  constructor
  · intro h
    have hdata := congrArg String.data h
    simp only [String.data_append] at hdata
    rcases hs with hs | hs <;> rcases ht with ht | ht <;> subst hs <;> subst ht
    · refine ⟨toString_int_inj ha hb ?_, rfl⟩
      simpa [String.data_append] using h
    · exfalso
      simp only [String.data, List.append_nil] at hdata
      have hmem : '/' ∈ (toString a).data := by
        rw [hdata]
        exact List.mem_append.mpr (Or.inr (by decide))
      have := toString_int_isDigit a ha '/' hmem
      simp at this
    · exfalso
      simp only [String.data, List.append_nil] at hdata
      have hmem : '/' ∈ (toString b).data := by
        rw [← hdata]
        exact List.mem_append.mpr (Or.inr (by decide))
      have := toString_int_isDigit b hb '/' hmem
      simp at this
    · refine ⟨toString_int_inj ha hb ?_, rfl⟩
      have hcancel := List.append_cancel_right hdata
      exact String.ext hcancel
  · rintro ⟨rfl, rfl⟩; rfl

/-! ### Characterizing the group-wide conflict check -/

lemma checkGo_ok_iff (ports : List (Int × Int × String)) :
    ∀ hks cks : List String,
      CheckGroupWideConflictsGo ports hks cks = .ok () ↔
        ((ports.map hostKey).Nodup ∧ (ports.map hostKey).Disjoint hks ∧
         (ports.map ctrKey).Nodup ∧ (ports.map ctrKey).Disjoint cks) := by
  induction ports with
  | nil => intro hks cks; simp [CheckGroupWideConflictsGo, List.Disjoint]
  | cons p rest ih =>
    intro hks cks
    simp only [CheckGroupWideConflictsGo, List.map_cons, List.nodup_cons,
      List.disjoint_cons_left]
    split_ifs with hh hc
    · simp [hh]
    · simp [hc]
    · rw [ih (hostKey p :: hks) (ctrKey p :: cks)]
      simp only [List.disjoint_cons_right, List.mem_map]
      constructor
      · rintro ⟨n1, ⟨hp1, d1⟩, n2, hp2, d2⟩
        exact ⟨⟨hp1, n1⟩, ⟨hh, d1⟩, ⟨hp2, n2⟩, hc, d2⟩
      · rintro ⟨⟨hp1, n1⟩, ⟨_, d1⟩, ⟨hp2, n2⟩, _, d2⟩
        exact ⟨n1, ⟨hp1, d1⟩, n2, hp2, d2⟩

lemma check_ok_iff_keys (cs : List Container) :
    CheckGroupWideConflicts cs = .ok () ↔
      ((allPorts cs).map hostKey).Nodup ∧ ((allPorts cs).map ctrKey).Nodup := by
  rw [CheckGroupWideConflicts, checkGo_ok_iff]
  simp [List.Disjoint]

lemma nodup_map_congr {α β γ : Type} (l : List α) (f : α → β) (g : α → γ)
    (h : ∀ a ∈ l, ∀ b ∈ l, (f a = f b ↔ g a = g b)) :
    (l.map f).Nodup ↔ (l.map g).Nodup := by
  induction l with
  | nil => simp
  | cons x xs ih =>
    simp only [List.map_cons, List.nodup_cons, List.mem_map]
    have hrec := ih fun a ha b hb =>
      h a (List.mem_cons_of_mem _ ha) b (List.mem_cons_of_mem _ hb)
    rw [hrec]
    have hx : (∃ a ∈ xs, f a = f x) ↔ (∃ a ∈ xs, g a = g x) := by
      constructor
      · rintro ⟨a, ha, hfa⟩
        exact ⟨a, ha, (h a (List.mem_cons_of_mem _ ha) x (List.mem_cons_self _ _)).mp hfa⟩
      · rintro ⟨a, ha, hga⟩
        exact ⟨a, ha, (h a (List.mem_cons_of_mem _ ha) x (List.mem_cons_self _ _)).mpr hga⟩
    constructor
    · rintro ⟨hn, hnd⟩
      exact ⟨fun hex => hn (hx.mpr hex), hnd⟩
    · rintro ⟨hn, hnd⟩
      exact ⟨fun hex => hn (hx.mp hex), hnd⟩

/-- Well-formedness of a port binding as produced by `LoadPorts`. -/
def WFPort (p : Int × Int × String) : Prop :=
  1 ≤ p.1 ∧ 1 ≤ p.2.1 ∧ (p.2.2 = "" ∨ p.2.2 = "/udp")

instance (p : Int × Int × String) : Decidable (WFPort p) := by
  unfold WFPort
  infer_instance

lemma nodup_hostKey_iff_pairs (ports : List (Int × Int × String))
    (hvalid : ∀ p ∈ ports, WFPort p) :
    (ports.map hostKey).Nodup ↔
      (ports.map fun p => (p.1, p.2.2)).Nodup := by
  apply nodup_map_congr
  intro a ha b hb
  obtain ⟨ha1, _, ha3⟩ := hvalid a ha
  obtain ⟨hb1, _, hb3⟩ := hvalid b hb
  rw [hostKey, hostKey, key_inj (by omega) (by omega) ha3 hb3, Prod.ext_iff]

lemma nodup_ctrKey_iff_pairs (ports : List (Int × Int × String))
    (hvalid : ∀ p ∈ ports, WFPort p) :
    (ports.map ctrKey).Nodup ↔
      (ports.map fun p => (p.2.1, p.2.2)).Nodup := by
  apply nodup_map_congr
  intro a ha b hb
  obtain ⟨_, ha2, ha3⟩ := hvalid a ha
  obtain ⟨_, hb2, hb3⟩ := hvalid b hb
  rw [ctrKey, ctrKey, key_inj (by omega) (by omega) ha3 hb3, Prod.ext_iff]

/-! ### Characterizing the loaders -/

/-- The host port a `ports` entry resolves to:
`port_spec.get('hostPort', ctr_port)`. -/
def portHostOf (ps : PortSpec) : Int := ps.hostPort.getD (ps.containerPort.getD 0)

/-- The container port a `ports` entry resolves to. -/
def portCtrOf (ps : PortSpec) : Int := ps.containerPort.getD 0

/-- The protocol a `ports` entry resolves to:
`port_spec.get('protocol', 'TCP')`. -/
def portProtoOf (ps : PortSpec) : String := ps.protocol.getD PROTOCOL_TCP

/-- The `(host_port, container_port, protocol_suffix)` tuple a valid
`ports` entry contributes. -/
def portTuple (ps : PortSpec) : Int × Int × String :=
  (portHostOf ps, portCtrOf ps, ProtocolString (portProtoOf ps))

lemma LoadPortEntry_ok {c pn : String} {nums : List Int} {ps : PortSpec}
    {t : Int × Int × String} (h : LoadPortEntry c pn nums ps = .ok t) :
    t = portTuple ps ∧ ps.containerPort.isSome = true ∧
    IsValidPort (portCtrOf ps) = true ∧ IsValidPort (portHostOf ps) = true ∧
    portHostOf ps ∉ nums ∧ IsValidProtocol (portProtoOf ps) = true := by
  unfold LoadPortEntry at h
  cases hcp : ps.containerPort with
  | none => rw [hcp] at h; cases h
  | some cp =>
    rw [hcp] at h
    simp only at h
    split_ifs at h with hv1 hv2 hdup hproto
    cases h
    refine ⟨?_, by simp [hcp], ?_, ?_, ?_, ?_⟩
    · simp [portTuple, portHostOf, portCtrOf, portProtoOf, hcp]
    · simpa [portCtrOf, hcp] using hv1
    · simpa [portHostOf, hcp] using hv2
    · simpa [portHostOf, hcp] using hdup
    · simpa [portProtoOf] using hproto

lemma LoadPortsGo_ok (c : String) (specs : List PortSpec) :
    ∀ (idx : Nat) (names : List String) (nums : List Int)
      (l : List (Int × Int × String)),
      LoadPortsGo c specs idx names nums = .ok l →
      l = specs.map portTuple ∧
      (∀ ps ∈ specs, ps.containerPort.isSome = true ∧
        IsValidPort (portCtrOf ps) = true ∧
        IsValidPort (portHostOf ps) = true ∧
        IsValidProtocol (portProtoOf ps) = true) ∧
      (specs.map portHostOf).Nodup ∧
      (specs.map portHostOf).Disjoint nums := by
  induction specs with
  | nil =>
    intro idx names nums l h
    simp only [LoadPortsGo] at h
    cases h
    simp [List.Disjoint]
  | cons ps rest ih =>
    intro idx names nums l h
    simp only [LoadPortsGo] at h
    cases hn : LoadPortsCheckName c idx names ps.name with
    | error e => simp only [hn] at h; cases h
    | ok pr =>
      simp only [hn] at h
      cases he : LoadPortEntry c pr.1 nums ps with
      | error e => simp only [he] at h; cases h
      | ok t =>
        simp only [he] at h
        cases hrec : LoadPortsGo c rest (idx + 1) pr.2 (t.1 :: nums) with
        | error e => simp only [hrec] at h; cases h
        | ok l' =>
          simp only [hrec, Except.ok.injEq] at h
          subst h
          obtain ⟨ht, hsome, hcv, hhv, hnin, hpv⟩ := LoadPortEntry_ok he
          obtain ⟨hl', hall, hnd, hdisj⟩ := ih (idx + 1) pr.2 _ l' hrec
          have ht1 : t.1 = portHostOf ps := by rw [ht]; rfl
          refine ⟨?_, ?_, ?_, ?_⟩
          · rw [List.map_cons, ht, hl']
          · intro q hq
            rcases List.mem_cons.mp hq with rfl | hq
            · exact ⟨hsome, hcv, hhv, hpv⟩
            · exact hall q hq
          · refine List.nodup_cons.mpr ⟨?_, hnd⟩
            intro hmem
            have := hdisj hmem
            rw [ht1] at this
            exact this (List.mem_cons_self _ _)
          · rw [List.map_cons, List.disjoint_cons_left]
            refine ⟨hnin, ?_⟩
            intro a hmem ha
            exact hdisj hmem (List.mem_cons_of_mem _ ha)

/-- The string `'%s/%s:%s:%s' % (VOLUMES_ROOT_DIR, vol_name, vol_path,
read_mode)` a valid `volumeMounts` entry derives. -/
def mountDirective (ms : MountSpec) : String :=
  VOLUMES_ROOT_DIR ++ "/" ++ ms.name.getD "" ++ ":" ++ ms.path.getD "" ++ ":" ++
    (if ms.readOnly.getD false then "ro" else "rw")

/-- Validity of one `volumeMounts` entry against the declared volumes. -/
def WFMount (vols : List String) (m : MountSpec) : Prop :=
  ∃ mn p, m.name = some mn ∧ IsRfc1035Name mn = true ∧ mn ∈ vols ∧
    m.path = some p ∧ IsValidPath p = some true

lemma LoadVolumeMountsGo_complete (vols : List String) (c : String)
    (specs : List MountSpec) :
    ∀ idx : Nat, (∀ m ∈ specs, WFMount vols m) →
      LoadVolumeMountsGo vols c specs idx = .ok (specs.map mountDirective) := by
  induction specs with
  | nil => intro idx _; rfl
  | cons m rest ih =>
    intro idx hall
    obtain ⟨mn, p, hmn, hvalid, hmem, hp, hpath⟩ := hall m (List.mem_cons_self _ _)
    have hrest := ih (idx + 1) fun q hq => hall q (List.mem_cons_of_mem _ hq)
    simp only [LoadVolumeMountsGo, hmn, hvalid, if_true, hmem, hp, hpath, hrest,
      List.map_cons, mountDirective, Option.getD_some]

/-- The string `'%s=%s' % (env_key, env_val)` a valid `env` entry derives. -/
def envAssignment (es : EnvSpec) : String :=
  es.key.getD "" ++ "=" ++ es.value.getD ""

/-- Validity of one `env` entry. -/
def WFEnv (e : EnvSpec) : Prop :=
  ∃ k v, e.key = some k ∧ IsCToken k = true ∧ e.value = some v

lemma LoadEnvVarsGo_complete (c : String) (specs : List EnvSpec) :
    ∀ idx : Nat, (∀ e ∈ specs, WFEnv e) →
      LoadEnvVarsGo c specs idx = .ok (specs.map envAssignment) := by
  induction specs with
  | nil => intro idx _; rfl
  | cons e rest ih =>
    intro idx hall
    obtain ⟨k, v, hk, hvalid, hv⟩ := hall e (List.mem_cons_self _ _)
    have hrest := ih (idx + 1) fun q hq => hall q (List.mem_cons_of_mem _ hq)
    simp only [LoadEnvVarsGo, hk, hvalid, if_true, hv, hrest, List.map_cons,
      envAssignment, Option.getD_some]

lemma LoadUserContainersGo_ok (vols : List String) (specs : List CtrSpec) :
    ∀ (idx : Nat) (names : List String) (ctrs : List Container),
      LoadUserContainersGo vols specs idx names = .ok ctrs →
      (ctrs.map Container.name).Nodup ∧
      (∀ ctr ∈ ctrs, IsRfc1035Name ctr.name = true ∧ ctr.name ∉ names ∧
        ctr.network_from = some "container:.net" ∧
        ctr.hostname = some ctr.name) ∧
      (∀ s ∈ specs, s.image.isSome = true) := by
  induction specs with
  | nil =>
    intro idx names ctrs h
    simp only [LoadUserContainersGo] at h
    cases h
    simp
  | cons cs rest ih =>
    intro idx names ctrs h
    simp only [LoadUserContainersGo] at h
    cases hn : cs.name with
    | none => simp only [hn] at h; cases h
    | some nm =>
      simp only [hn] at h
      by_cases hvn : IsRfc1035Name nm = true
      case neg => rw [if_neg hvn] at h; cases h
      case pos =>
      rw [if_pos hvn] at h
      by_cases hdup : nm ∈ names
      case pos => rw [if_pos hdup] at h; cases h
      case neg =>
      rw [if_neg hdup] at h
      · cases himg : cs.image with
        | none => simp only [himg] at h; cases h
        | some img =>
          simp only [himg] at h
          cases hwd : CheckWorkingDir nm cs.workingDir with
          | error e => simp only [hwd] at h; cases h
          | ok u =>
            simp only [hwd] at h
            cases hports : LoadPorts cs.ports nm with
            | error e => simp only [hports] at h; cases h
            | ok ports =>
              simp only [hports] at h
              cases hmnts : LoadVolumeMounts cs.volumeMounts vols nm with
              | error e => simp only [hmnts] at h; cases h
              | ok mounts =>
                simp only [hmnts] at h
                cases henv : LoadEnvVars cs.env nm with
                | error e => simp only [henv] at h; cases h
                | ok envVars =>
                  simp only [henv] at h
                  cases hrec : LoadUserContainersGo vols rest (idx + 1) (nm :: names) with
                  | error e => simp only [hrec] at h; cases h
                  | ok tail =>
                    simp only [hrec, Except.ok.injEq] at h
                    subst h
                    obtain ⟨tnodup, tall, timg⟩ := ih (idx + 1) (nm :: names) tail hrec
                    refine ⟨?_, ?_, ?_⟩
                    · simp only [List.map_cons, List.nodup_cons]
                      refine ⟨?_, tnodup⟩
                      intro hmem
                      obtain ⟨ctr, hctr, hname⟩ := List.mem_map.mp hmem
                      have hnin := (tall ctr hctr).2.1
                      rw [hname] at hnin
                      exact hnin (List.mem_cons_self _ _)
                    · intro ctr hctr
                      rcases List.mem_cons.mp hctr with rfl | hctr
                      · exact ⟨hvn, hdup, rfl, rfl⟩
                      · obtain ⟨h1, h2, h3, h4⟩ := tall ctr hctr
                        exact ⟨h1, fun hc => h2 (List.mem_cons_of_mem _ hc), h3, h4⟩
                    · intro s hs
                      rcases List.mem_cons.mp hs with rfl | hs
                      · simp [himg]
                      · exact timg s hs

/-! ### The flat characterization of the RFC-1035 name grammar -/

/-- The claim's characterization of the name grammar, following its words:
starts with a lowercase letter, contains only lowercase letters, digits
and hyphens, does not end with a hyphen, and has length at least 1 —
stated on a character list. -/
def rfc1035Flat : List Char → Bool
  | [] => false
  | c :: rest =>
    isLowerAZ c && (c :: rest).all rfc1035Body &&
      !((c :: rest).getLast? == some '-')

/-- The claim's characterization of the name grammar on strings. -/
def rfc1035ClaimCheck (s : String) : Bool := rfc1035Flat s.toList

lemma lower_body {c : Char} (h : isLowerAZ c = true) : rfc1035Body c = true := by
  simp [rfc1035Body, h]

lemma lower_ne_dash {c : Char} (h : isLowerAZ c = true) : ¬(c = '-') := by
  intro hc
  subst hc
  simp [isLowerAZ] at h

lemma rfc1035Tail_eq (l : List Char) :
    rfc1035Tail l = (l.all rfc1035Body && !(l.getLast? == some '-')) := by
  induction l with
  | nil => rfl
  | cons c rest ih =>
    cases rest with
    | nil =>
      by_cases hc : c = '-'
      · subst hc; decide
      · simp [rfc1035Tail, rfc1035Body, hc]
    | cons d rest' =>
      rw [show rfc1035Tail (c :: d :: rest') = (rfc1035Body c && rfc1035Tail (d :: rest')) from rfl,
        ih, List.getLast?_cons_cons]
      simp [List.all_cons, Bool.and_assoc]

lemma rfc1035Exact_eq_flat (l : List Char) :
    rfc1035Exact l = rfc1035Flat l := by
  cases l with
  | nil => rfl
  | cons c rest =>
    rw [show rfc1035Exact (c :: rest) = (isLowerAZ c && rfc1035Tail rest) from rfl,
      rfc1035Tail_eq, rfc1035Flat]
    by_cases hc : isLowerAZ c = true
    · have hbody := lower_body hc
      have hdash := lower_ne_dash hc
      cases rest with
      | nil => simp [hc, hbody, hdash]
      | cons d rest' =>
        rw [List.getLast?_cons_cons]
        simp [hc, hbody, List.all_cons, Bool.and_assoc]
    · simp only [Bool.not_eq_true] at hc
      simp [hc]

lemma rfc1035Exact_getLast_newline {l : List Char}
    (h : l.getLast? = some '\n') : rfc1035Exact l = false := by
  rw [rfc1035Exact_eq_flat]
  cases l with
  | nil => rfl
  | cons c rest =>
    have hmem : '\n' ∈ c :: rest := by
      rw [List.getLast?_eq_getElem?] at h
      exact List.getElem?_mem h
    rw [rfc1035Flat]
    have hall : (c :: rest).all rfc1035Body = false := by
      rw [List.all_eq_false]
      exact ⟨'\n', hmem, by decide⟩
    simp [hall]

/-! ### Concrete fixtures -/

/-- A minimal manifest entry: one container, no ports, mounts or env. -/
def minimalSpec : CtrSpec :=
  { name := some "ctr1", image := some "busybox", command := [],
    workingDir := none, ports := [], volumeMounts := [], env := [] }

/-- The container `minimalSpec` loads to. -/
def minimalCtr : Container :=
  { name := "ctr1", image := "busybox", command := [], hostname := some "ctr1",
    working_dir := none, ports := [], mounts := [], env_vars := [],
    network_from := some "container:.net" }

/-- A loaded user container with the given name and ports. -/
def ctrPorts (nm : String) (ports : List (Int × Int × String)) : Container :=
  { name := nm, image := "img", command := [], hostname := some nm,
    working_dir := none, ports := ports, mounts := [], env_vars := [],
    network_from := some "container:.net" }

/-! ### Claims -/

/-- C1: for every loaded manifest with a non-empty user-container list,
group resolution yields the holder first and then the user containers in
manifest order; the holder's port list is the concatenation of the users'
original port lists in container order; every user container's port list
is empty after resolution and its `network_from` is `container:.net`;
the minimal one-container manifest resolves to exactly the two entries
with the holder first. -/
theorem C1_group_resolution :
    (∀ (specs : List CtrSpec) (vols : List String) (users : List Container),
      LoadUserContainers specs vols = .ok users → users ≠ [] →
      ResolveGroup users =
        netContainer users :: users.map (fun c => { c with ports := [] }) ∧
      (netContainer users).ports = (users.map Container.ports).flatten ∧
      (∀ c ∈ (LoadInfraContainers users).2, c.ports = []) ∧
      (∀ c ∈ users, c.network_from = some "container:.net") ∧
      (ResolveGroup users).length = users.length + 1) ∧
    LoadUserContainers [minimalSpec] [] = .ok [minimalCtr] ∧
    ResolveGroup [minimalCtr] = [netContainer [minimalCtr], minimalCtr] ∧
    (netContainer [minimalCtr]).name = ".net" ∧
    minimalCtr.ports = [] ∧
    minimalCtr.network_from = some "container:.net" := by
  refine ⟨?_, by decide, by decide, by decide, by decide, by decide⟩
  intro specs vols users h hne
  obtain ⟨hnodup, hall, himg⟩ := LoadUserContainersGo_ok vols specs 0 [] users h
  refine ⟨rfl, rfl, ?_, ?_, by simp [ResolveGroup, LoadInfraContainers]⟩
  · intro c hc
    simp only [LoadInfraContainers, List.mem_map] at hc
    obtain ⟨a, _, rfl⟩ := hc
    rfl
  · intro c hc
    exact (hall c hc).2.2.1

theorem C1_witness :
    ResolveGroup [minimalCtr] =
      netContainer [minimalCtr] ::
        [minimalCtr].map (fun c => { c with ports := [] }) ∧
    (netContainer [minimalCtr]).ports =
      ([minimalCtr].map Container.ports).flatten ∧
    (∀ c ∈ (LoadInfraContainers [minimalCtr]).2, c.ports = []) ∧
    (∀ c ∈ [minimalCtr], c.network_from = some "container:.net") ∧
    (ResolveGroup [minimalCtr]).length = [minimalCtr].length + 1 :=
  C1_group_resolution.1 [minimalSpec] [] [minimalCtr] (by decide) (by decide)

/-- C2: the group-wide conflict check succeeds on validated user
containers iff no two bindings share a `(host_port, protocol_suffix)`
pair and no two share a `(container_port, protocol_suffix)` pair; two
containers whose only ports are host port 80/TCP each fail with a
host-port-conflict error, while the same two with one binding on UDP
pass. -/
theorem C2_group_conflicts :
    (∀ cs : List Container, (∀ p ∈ allPorts cs, WFPort p) →
      (CheckGroupWideConflicts cs = .ok () ↔
        ((allPorts cs).map fun p => (p.1, p.2.2)).Nodup ∧
        ((allPorts cs).map fun p => (p.2.1, p.2.2)).Nodup)) ∧
    CheckGroupWideConflicts
      [ctrPorts "a" [(80, 80, "")], ctrPorts "b" [(80, 80, "")]] =
      .error (.hostPortConflict "80") ∧
    CheckGroupWideConflicts
      [ctrPorts "a" [(80, 80, "")], ctrPorts "b" [(80, 80, "/udp")]] =
      .ok () := by
  refine ⟨?_, by decide, by decide⟩
  intro cs hwf
  rw [check_ok_iff_keys, nodup_hostKey_iff_pairs _ hwf,
    nodup_ctrKey_iff_pairs _ hwf]

theorem C2_witness :
    CheckGroupWideConflicts [ctrPorts "a" [(80, 80, ""), (80, 80, "/udp")]] = .ok () ↔
      ((allPorts [ctrPorts "a" [(80, 80, ""), (80, 80, "/udp")]]).map
        fun p => (p.1, p.2.2)).Nodup ∧
      ((allPorts [ctrPorts "a" [(80, 80, ""), (80, 80, "/udp")]]).map
        fun p => (p.2.1, p.2.2)).Nodup :=
  C2_group_conflicts.1 [ctrPorts "a" [(80, 80, ""), (80, 80, "/udp")]] (by decide)

/-- C3: the path validator does not return a boolean on every string: on
the empty string the source evaluates `path[0]`, which raises a Python
`IndexError` (embedded as `none`) instead of returning `False`; on
non-empty strings it does return a boolean.  The IndexError escapes the
callers, e.g. the mounts pass. -/
theorem C3_path_validator_exception :
    IsValidPath "" = none ∧
    IsValidPath "/mnt" = some true ∧
    IsValidPath "mnt" = some false ∧
    LoadVolumeMounts [⟨some "v", some "", none⟩] ["v"] "c" =
      .error .pyIndexError ∧
    CheckWorkingDir "c" (some "") = .error .pyIndexError := by
  refine ⟨rfl, by decide, by decide, by decide, rfl⟩

/-- C4 (counterexample): name validity as implemented does not coincide
with the claimed characterization on every string: `"a\n"` is accepted by
the source (Python's `$` matches before a trailing newline) but contains
a character that is not a lowercase letter, digit or hyphen. -/
theorem C4_counterexample :
    IsRfc1035Name "a\n" = true ∧ rfc1035ClaimCheck "a\n" = false := by
  decide

/-- C4 (amended): for every string not ending in a newline, name validity
holds iff the string starts with a lowercase letter, contains only
lowercase letters, digits and hyphens, and does not end with a hyphen
(length at least 1); a string ending in a newline is valid iff the string
without that final newline satisfies the same characterization.  The
concrete examples behave as claimed. -/
theorem C4_name_grammar :
    (∀ s : String, s.toList.getLast? ≠ some '\n' →
      IsRfc1035Name s = rfc1035ClaimCheck s) ∧
    (∀ s : String, s.toList.getLast? = some '\n' →
      IsRfc1035Name s = rfc1035ClaimCheck (String.mk s.toList.dropLast)) ∧
    IsRfc1035Name "a" = true ∧ IsRfc1035Name "abc-123-def" = true ∧
    IsRfc1035Name "1" = false ∧ IsRfc1035Name "ab-" = false ∧
    IsRfc1035Name "A.B" = false ∧ IsRfc1035Name "a_b" = false := by
  refine ⟨?_, ?_, by decide, by decide, by decide, by decide, by decide,
    by decide⟩
  · intro s hs
    rw [IsRfc1035Name, rfc1035ClaimCheck, rfc1035Exact_eq_flat]
    have hbeq : (s.toList.getLast? == some '\n') = false := by
      rw [beq_eq_false_iff_ne]
      exact hs
    rw [hbeq]
    simp
  · intro s hs
    rw [IsRfc1035Name, rfc1035Exact_getLast_newline hs, hs]
    simp only [Bool.false_or]
    rw [show ((some '\n' == some '\n') = true) from rfl, Bool.true_and,
      rfc1035ClaimCheck, rfc1035Exact_eq_flat]
    rfl

theorem C4_witness :
    IsRfc1035Name "ab" = rfc1035ClaimCheck "ab" ∧
    IsRfc1035Name "ab\n" = rfc1035ClaimCheck (String.mk "ab\n".toList.dropLast) :=
  ⟨C4_name_grammar.1 "ab" (by decide), C4_name_grammar.2.1 "ab\n" (by decide)⟩

/-- C5: on every successfully loaded manifest the container names are
unique across the full resolved group: the user names are pairwise
distinct, every user name satisfies the RFC-1035 check, and the
synthesized holder's name `.net` fails that check, so it differs from
every user name. -/
theorem C5_unique_names :
    ∀ (specs : List CtrSpec) (vols : List String) (users : List Container),
      LoadUserContainers specs vols = .ok users →
      ((".net" :: users.map Container.name).Nodup ∧
        IsRfc1035Name ".net" = false ∧
        ∀ c ∈ users, IsRfc1035Name c.name = true) := by
  intro specs vols users h
  obtain ⟨hnodup, hall, _⟩ := LoadUserContainersGo_ok vols specs 0 [] users h
  refine ⟨List.nodup_cons.mpr ⟨?_, hnodup⟩, by decide,
    fun c hc => (hall c hc).1⟩
  intro hmem
  obtain ⟨c, hc, hname⟩ := List.mem_map.mp hmem
  have hv := (hall c hc).1
  rw [hname] at hv
  exact absurd hv (by decide)

theorem C5_witness :
    (".net" :: [minimalCtr].map Container.name).Nodup ∧
    IsRfc1035Name ".net" = false ∧
    ∀ c ∈ [minimalCtr], IsRfc1035Name c.name = true :=
  C5_unique_names [minimalSpec] [] [minimalCtr] (by decide)

/-- C6: every valid mount entry derives exactly the directive
`<volumes-root>/<vol>:<path>:rw` (or `:ro` when `readOnly` is true),
where the volumes root is the fixed `/export`; the loader returns the
directives of the entries in order. -/
theorem C6_mount_directive :
    (∀ (vols : List String) (c : String) (ms : List MountSpec),
      (∀ m ∈ ms, WFMount vols m) →
      LoadVolumeMounts ms vols c = .ok (ms.map mountDirective)) ∧
    mountDirective ⟨some "vol1", some "/mnt", none⟩ = "/export/vol1:/mnt:rw" ∧
    mountDirective ⟨some "vol1", some "/mnt", some true⟩ = "/export/vol1:/mnt:ro" ∧
    mountDirective ⟨some "vol1", some "/mnt", some false⟩ = "/export/vol1:/mnt:rw" ∧
    VOLUMES_ROOT_DIR = "/export" ∧
    LoadVolumeMounts [⟨some "vol1", some "/mnt", none⟩] ["vol1"] "c" =
      .ok ["/export/vol1:/mnt:rw"] := by
  refine ⟨?_, by decide, by decide, by decide, by decide, by decide⟩
  intro vols c ms hwf
  exact LoadVolumeMountsGo_complete vols c ms 0 hwf

theorem C6_witness :
    LoadVolumeMounts [⟨some "vol1", some "/mnt", some true⟩] ["vol1"] "c" =
      .ok ([⟨some "vol1", some "/mnt", some true⟩].map mountDirective) :=
  C6_mount_directive.1 ["vol1"] "c" [⟨some "vol1", some "/mnt", some true⟩]
    (by intro m hm
        simp only [List.mem_singleton] at hm
        subst hm
        exact ⟨"vol1", "/mnt", rfl, by decide, by decide, rfl, by decide⟩)

/-- C7: whenever the ports sub-pass succeeds, every entry had a
`containerPort`, the resolved host port (defaulting to the container
port) and container port are valid, the resolved protocol (defaulting to
TCP) is TCP or UDP, the per-container host ports are pairwise distinct,
and the result is the ordered list of
`(host_port, container_port, protocol_suffix)` tuples in entry order;
missing `containerPort`, duplicate host ports and unknown protocols each
produce the corresponding fatal error. -/
theorem C7_ports_pass :
    (∀ (spec : List PortSpec) (c : String) (l : List (Int × Int × String)),
      LoadPorts spec c = .ok l →
      l = spec.map portTuple ∧
      (∀ ps ∈ spec, ps.containerPort.isSome = true ∧
        IsValidPort (portCtrOf ps) = true ∧
        IsValidPort (portHostOf ps) = true ∧
        (portProtoOf ps = "TCP" ∨ portProtoOf ps = "UDP")) ∧
      (spec.map portHostOf).Nodup) ∧
    LoadPorts [⟨none, some 80, none, none⟩] "c" = .ok [(80, 80, "")] ∧
    LoadPorts [⟨none, some 80, some 90, some "UDP"⟩] "c" = .ok [(90, 80, "/udp")] ∧
    LoadPorts [⟨none, none, some 90, none⟩] "c" =
      .error (.portNoContainerPort "c" "0") ∧
    LoadPorts [⟨none, some 80, some 90, none⟩, ⟨none, some 81, some 90, none⟩] "c" =
      .error (.portDupHostPort "c" "1" 90) ∧
    LoadPorts [⟨none, some 80, none, some "ICMP"⟩] "c" =
      .error (.portBadProtocol "c" "0" "ICMP") := by
  refine ⟨?_, by decide, by decide, by decide, by decide, by decide⟩
  intro spec c l h
  obtain ⟨hl, hall, hnodup, _⟩ := LoadPortsGo_ok c spec 0 [] [] l h
  refine ⟨hl, ?_, hnodup⟩
  intro ps hps
  obtain ⟨h1, h2, h3, h4⟩ := hall ps hps
  refine ⟨h1, h2, h3, ?_⟩
  simpa [IsValidProtocol, VALID_PROTOCOLS, PROTOCOL_TCP, PROTOCOL_UDP] using h4

theorem C7_witness :
    [(80, 80, ""), (90, 81, "/udp")] =
      [(⟨none, some 80, none, none⟩ : PortSpec),
       ⟨none, some 81, some 90, some "UDP"⟩].map portTuple ∧
    (∀ ps ∈ [(⟨none, some 80, none, none⟩ : PortSpec),
       ⟨none, some 81, some 90, some "UDP"⟩], ps.containerPort.isSome = true ∧
        IsValidPort (portCtrOf ps) = true ∧
        IsValidPort (portHostOf ps) = true ∧
        (portProtoOf ps = "TCP" ∨ portProtoOf ps = "UDP")) ∧
    ([(⟨none, some 80, none, none⟩ : PortSpec),
       ⟨none, some 81, some 90, some "UDP"⟩].map portHostOf).Nodup :=
  C7_ports_pass.1
    [⟨none, some 80, none, none⟩, ⟨none, some 81, some 90, some "UDP"⟩] "c"
    [(80, 80, ""), (90, 81, "/udp")] (by decide)

/-- C8 (counterexample): a container whose `image` field is present but
empty loads successfully — the source only checks key presence, so the
claim that an empty image fails to load is false. -/
theorem C8_counterexample :
    LoadUserContainers
      [{ name := some "a", image := some "", command := [],
         workingDir := none, ports := [], volumeMounts := [], env := [] }] [] =
      .ok [{ name := "a", image := "", command := [], hostname := some "a",
             working_dir := none, ports := [], mounts := [], env_vars := [],
             network_from := some "container:.net" }] := by
  decide

/-- C8 (amended): loading fails fatally when `image` is absent; any
present value is accepted with no further validation, including the
empty string. -/
theorem C8_image_required :
    (∀ (specs : List CtrSpec) (vols : List String) (users : List Container),
      LoadUserContainers specs vols = .ok users →
      ∀ s ∈ specs, s.image.isSome = true) ∧
    LoadUserContainers
      [{ name := some "a", image := none, command := [], workingDir := none,
         ports := [], volumeMounts := [], env := [] }] [] =
      .error (.ctrNoImage "a") := by
  refine ⟨?_, by decide⟩
  intro specs vols users h
  exact (LoadUserContainersGo_ok vols specs 0 [] users h).2.2

theorem C8_witness :
    ∀ s ∈ [minimalSpec], s.image.isSome = true :=
  C8_image_required.1 [minimalSpec] [] [minimalCtr] (by decide)

/-- C9: every environment entry with a present valid key and present
value derives exactly the string `KEY=VALUE` with the value verbatim;
assignments appear in entry order and duplicate keys each produce their
own assignment. -/
theorem C9_env_assignments :
    (∀ (es : List EnvSpec) (c : String), (∀ e ∈ es, WFEnv e) →
      LoadEnvVars es c = .ok (es.map envAssignment)) ∧
    envAssignment ⟨some "KEY", some "value str"⟩ = "KEY=value str" ∧
    LoadEnvVars [⟨some "K", some "v1"⟩, ⟨some "K", some "v2"⟩] "c" =
      .ok ["K=v1", "K=v2"] := by
  refine ⟨?_, by decide, by decide⟩
  intro es c h
  exact LoadEnvVarsGo_complete c es 0 h

theorem C9_witness :
    LoadEnvVars [⟨some "KEY", some "value str"⟩] "c" =
      .ok ([(⟨some "KEY", some "value str"⟩ : EnvSpec)].map envAssignment) :=
  C9_env_assignments.1 [⟨some "KEY", some "value str"⟩] "c"
    (by intro e he
        simp only [List.mem_singleton] at he
        subst he
        exact ⟨"KEY", "value str", rfl, by decide, rfl⟩)

/-- C10: within a single container, two port entries with the same host
port but different protocols (TCP and UDP) make the ports sub-pass fail
with the host-port uniqueness error — the per-container check compares
port numbers only — while the group-wide check keys on the
`(port, protocol_suffix)` pair and accepts the same two bindings when
they are split across two containers. -/
theorem C10_host_port_ignores_protocol :
    (∀ (h : Int) (c : String), IsValidPort h = true →
      LoadPorts [⟨none, some h, some h, some "TCP"⟩,
                 ⟨none, some h, some h, some "UDP"⟩] c =
        .error (.portDupHostPort c "1" h)) ∧
    LoadPorts [⟨none, some 80, some 80, some "TCP"⟩,
               ⟨none, some 80, some 80, some "UDP"⟩] "c" =
      .error (.portDupHostPort "c" "1" 80) ∧
    CheckGroupWideConflicts
      [ctrPorts "a" [(80, 80, "")], ctrPorts "udp" [(80, 80, "/udp")]] =
      .ok () := by
  refine ⟨?_, by decide, by decide⟩
  intro h c hv
  simp only [LoadPorts, LoadPortsGo, LoadPortsCheckName, LoadPortEntry, hv,
    IsValidProtocol, VALID_PROTOCOLS, PROTOCOL_TCP, PROTOCOL_UDP,
    show toString (1 : Nat) = "1" from rfl]
  simp [hv]

theorem C10_witness :
    LoadPorts [⟨none, some 8080, some 8080, some "TCP"⟩,
               ⟨none, some 8080, some 8080, some "UDP"⟩] "web" =
      .error (.portDupHostPort "web" "1" 8080) :=
  C10_host_port_ignores_protocol.1 8080 "web" (by decide)

end RunContainers
